import Mathlib

/-!
A shallow embedding of the storefront backend in `src/server.js` (the active
server definition): a document store holding products, users and cart lines,
with route handlers for login, product CRUD, cart accumulation and checkout
settlement, modelled as pure functions from the store state.

Conventions of the embedding:
* Mongo documents get `Nat` identities (`Product.id`); `findById` is
  `List.find?` on the id, `findByIdAndUpdate` and the per-document `save` are
  a `List.map` replacing the document with that id, `findByIdAndDelete` and
  `deleteMany` are `List.filter`.
* A request-body scalar is classified the way the express-validator checks
  used by the server classify it: an integral number, a non-integral number,
  or a non-numeric value (`BodyVal`).
* Each mutating handler returns the HTTP outcome together with the store
  state after the request: `(Except ApiError α) × Store`.  A thrown JS
  `TypeError` (property access on `null`) is the `ApiError.typeError`
  outcome: no JSON error response is produced in that case.
-/

/-- A JSON request-body scalar as classified by the express-validator checks
the server uses (`isNumeric`, `isInt` with a minimum): an integral number, a
non-integral number, or a non-numeric value. -/
inductive BodyVal where
  | int : Int → BodyVal
  | nonIntNum : BodyVal
  | nonNum : BodyVal
deriving DecidableEq, Repr

/-- Validator check `isNumeric()`: accepts any numeric value. -/
def isNumeric : BodyVal → Bool
  | .int _ => true
  | .nonIntNum => true
  | .nonNum => false

/-- Validator check `isInt` with minimum `m`: accepts an integral number
that is at least `m`. -/
def isIntMin (m : Int) : BodyVal → Bool
  | .int n => m ≤ n
  | _ => false

/-- A product document: `productSchema` has `name`, `price`, `stock`;
`id` models the Mongo `_id`. -/
structure Product where
  id : Nat
  name : String
  price : BodyVal
  stock : Int
deriving DecidableEq, Repr

/-- A user document: `userSchema` has `username`, `password`, `role`. -/
structure User where
  username : String
  password : String
  role : String
deriving DecidableEq, Repr

/-- A cart document: `cartSchema` has `userId`, `productId`, `quantity`. -/
structure CartLine where
  userId : String
  productId : Nat
  quantity : Int
deriving DecidableEq, Repr

/-- The document store: the three collections, plus a fresh-id source
modelling Mongo id generation for new product documents. -/
structure Store where
  products : List Product
  users : List User
  carts : List CartLine
  nextId : Nat
deriving DecidableEq, Repr

/-- The error responses the handlers produce.  `validation` is a 400 with the
express-validator message array, `notFound` a 404, `unauthorized` a 401,
`insufficientStock` a 400 with a single error message.  `typeError` is an
exception thrown inside the handler (reading a property of `null`), which
never reaches a `res.status` call. -/
inductive ApiError where
  | validation : List String → ApiError
  | notFound : String → ApiError
  | unauthorized : String → ApiError
  | insufficientStock : String → ApiError
  | typeError : ApiError
deriving DecidableEq, Repr

/-- The validator chain shared by `POST /products` and `PUT /products/:id`:
`name` notEmpty, `price` isNumeric, `stock` isInt with minimum 0, each with
its message, collected in attachment order. -/
def productValidationErrors (name : String) (price stock : BodyVal) : List String :=
  (if name = "" then ["Name is required"] else []) ++
  (if isNumeric price then [] else ["Price must be a number"]) ++
  (if isIntMin 0 stock then [] else ["Stock must be a non-negative integer"])

/-- The validator chain attached to `POST /cart`: `userId` notEmpty,
`productId` notEmpty, `quantity` isInt with minimum 1.  The `/cart` handler
never reads `validationResult`, so these recorded errors are never
surfaced. -/
def cartValidationErrors (userId productId : String) (quantity : BodyVal) : List String :=
  (if userId = "" then ["User ID required"] else []) ++
  (if productId = "" then ["Product ID required"] else []) ++
  (if isIntMin 1 quantity then [] else ["Quantity must be at least 1"])

/-- Route `GET /product`: `Product.find()` returns every product document. -/
def listProducts (s : Store) : List Product :=
  s.products

/-- Route `POST /login`: `User.findOne` on both `username` and `password`;
on a match respond with the role of the matched user, otherwise 401
`Invalid credentials`. -/
def login (s : Store) (username password : String) : Except ApiError String :=
  match s.users.find? (fun u => u.username == username && u.password == password) with
  | some u => .ok u.role
  | none => .error (.unauthorized "Invalid credentials")

/-- Route `POST /products`: check `validationResult`; on failure 400 with the
error array, otherwise save a new product document built from the body and
respond with it. -/
def createProduct (s : Store) (name : String) (price stock : BodyVal) :
    Except ApiError Product × Store :=
  let errs := productValidationErrors name price stock
  if errs = [] then
    match stock with
    | .int n =>
        let p : Product := ⟨s.nextId, name, price, n⟩
        (.ok p, { s with products := s.products ++ [p], nextId := s.nextId + 1 })
    | _ => (.error (.validation errs), s)
  else
    (.error (.validation errs), s)

/-- Route `PUT /products/:id`: check `validationResult`; on failure 400; then
`findByIdAndUpdate` with the new document returned: if no document has the
id, 404 `Product not found`, otherwise overwrite the body fields of that
document and respond with the updated document. -/
def updateProduct (s : Store) (id : Nat) (name : String) (price stock : BodyVal) :
    Except ApiError Product × Store :=
  let errs := productValidationErrors name price stock
  if errs = [] then
    match stock with
    | .int n =>
        match s.products.find? (fun p => p.id == id) with
        | none => (.error (.notFound "Product not found"), s)
        | some p =>
            let p' : Product := ⟨p.id, name, price, n⟩
            (.ok p', { s with products := s.products.map (fun q => if q.id == id then p' else q) })
    | _ => (.error (.validation errs), s)
  else
    (.error (.validation errs), s)

/-- Route `DELETE /products/:id`: `findByIdAndDelete` with no existence
check, then respond `Product deleted` unconditionally. -/
def deleteProduct (s : Store) (id : Nat) : String × Store :=
  ("Product deleted", { s with products := s.products.filter (fun p => !(p.id == id)) })

/-- Route `POST /cart`, the handler body (it never consults
`validationResult`): `Product.findById(productId)`; if the product is
missing or its stock is below the requested quantity, 400
`Insufficient stock or product not found`; otherwise save a new cart
document, with no merging into an existing line. -/
def addToCart (s : Store) (userId : String) (productId : Nat) (quantity : Int) :
    Except ApiError String × Store :=
  match s.products.find? (fun p => p.id == productId) with
  | none => (.error (.insufficientStock "Insufficient stock or product not found"), s)
  | some product =>
      if product.stock < quantity then
        (.error (.insufficientStock "Insufficient stock or product not found"), s)
      else
        (.ok "Added to cart", { s with carts := s.carts ++ [⟨userId, productId, quantity⟩] })

/-- The settlement loop of `POST /cart/purchase` over the fetched cart lines:
for each line re-fetch the product; if it exists with sufficient stock,
decrement and save; otherwise build the message from the `name` field of the
product, which throws a `TypeError` when the product is `null`.  Returns the
loop outcome and the product collection as left by the decrements already
applied. -/
def purchaseLoop : List Product → List CartLine → Except ApiError Unit × List Product
  | products, [] => (.ok (), products)
  | products, item :: rest =>
      match products.find? (fun p => p.id == item.productId) with
      | some product =>
          if product.stock ≥ item.quantity then
            purchaseLoop
              (products.map (fun q =>
                if q.id == product.id then { q with stock := q.stock - item.quantity } else q))
              rest
          else
            (.error (.insufficientStock ("Insufficient stock for " ++ product.name)), products)
      | none => (.error .typeError, products)

/-- Route `POST /cart/purchase`: `Cart.find` on the user, the settlement
loop, then — only when every line passed — `Cart.deleteMany` on the user and
the response `Purchase successful!`.  An abort leaves the decrements already
applied in place and the cart uncleared. -/
def purchaseCart (s : Store) (userId : String) : Except ApiError String × Store :=
  let items := s.carts.filter (fun c => c.userId == userId)
  match purchaseLoop s.products items with
  | (.ok _, products') =>
      (.ok "Purchase successful!",
        { s with products := products', carts := s.carts.filter (fun c => !(c.userId == userId)) })
  | (.error e, products') =>
      (.error e, { s with products := products' })

/-- Total quantity requested for one product across a list of cart lines. -/
def totalQty (pid : Nat) (lines : List CartLine) : Int :=
  ((lines.filter (fun c => c.productId == pid)).map CartLine.quantity).sum

/-- Every product in the collection has non-negative stock. -/
abbrev StockInv (ps : List Product) : Prop :=
  ∀ p ∈ ps, 0 ≤ p.stock

/-- Store for the missing-product checkout scenario: product 1 exists with
stock 5; user u has a passing line for product 1 and a line referencing the
nonexistent product 99. -/
def c1Store : Store :=
  { products := [⟨1, "A", .int 10, 5⟩], users := [],
    carts := [⟨"u", 1, 2⟩, ⟨"u", 99, 1⟩], nextId := 2 }

/-- Store for the insufficient-stock checkout scenario: product 1 has
stock 5 and the single cart line of user u asks for 7. -/
def c1bStore : Store :=
  { products := [⟨1, "A", .int 10, 5⟩], users := [], carts := [⟨"u", 1, 7⟩], nextId := 2 }

/-- Store for the happy-path checkout scenario of the spec: one product with
stock 10 and one cart line of quantity 3. -/
def c2Store : Store :=
  { products := [⟨1, "A", .int 10, 10⟩], users := [], carts := [⟨"u", 1, 3⟩], nextId := 2 }

/-- The store after the happy-path checkout: stock decremented to 7 and the
cart emptied. -/
def c2After : Store :=
  { products := [⟨1, "A", .int 10, 7⟩], users := [], carts := [], nextId := 2 }

/-- Store with one product of stock 5 and an empty cart, for the cart-add
scenarios. -/
def c3Store : Store :=
  { products := [⟨1, "A", .int 10, 5⟩], users := [], carts := [], nextId := 2 }

/-- An empty store. -/
def w4Store : Store :=
  { products := [], users := [], carts := [], nextId := 0 }

/-- Store with two products, for the update frame scenario. -/
def w5Store : Store :=
  { products := [⟨1, "A", .int 10, 5⟩, ⟨2, "B", .int 20, 7⟩], users := [], carts := [],
    nextId := 3 }

/-- Store holding the two seeded users. -/
def w7Store : Store :=
  { products := [], users := [⟨"admin", "admin123", "admin"⟩, ⟨"user", "user123", "user"⟩],
    carts := [], nextId := 0 }

/-- Store with one product and one cart line, all stocks non-negative. -/
def w8Store : Store :=
  { products := [⟨1, "A", .int 10, 5⟩], users := [], carts := [⟨"u", 1, 2⟩], nextId := 2 }

/-- Store where only user bob has a cart line, so the cart of alice is
empty. -/
def w9Store : Store :=
  { products := [⟨1, "A", .int 10, 5⟩], users := [], carts := [⟨"bob", 1, 2⟩], nextId := 2 }

lemma addToCart_products_eq (s : Store) (u : String) (pid : Nat) (q : Int) :
    (addToCart s u pid q).2.products = s.products := by
  unfold addToCart
  cases h : s.products.find? (fun p => p.id == pid) with
  | none => rfl
  | some product =>
      by_cases hs : product.stock < q
      · simp [hs]
      · simp [hs]

lemma addToCart_users_eq (s : Store) (u : String) (pid : Nat) (q : Int) :
    (addToCart s u pid q).2.users = s.users := by
  unfold addToCart
  cases h : s.products.find? (fun p => p.id == pid) with
  | none => rfl
  | some product =>
      by_cases hs : product.stock < q
      · simp [hs]
      · simp [hs]

lemma productValidationErrors_eq_nil (name : String) (price stock : BodyVal) :
    productValidationErrors name price stock = [] ↔
      (¬ name = "" ∧ isNumeric price = true ∧ isIntMin 0 stock = true) := by
  unfold productValidationErrors
  by_cases h1 : name = "" <;> by_cases h2 : isNumeric price = true <;>
    by_cases h3 : isIntMin 0 stock = true <;> simp [h1, h2, h3]

lemma isIntMin_int (m : Int) (stock : BodyVal) (h : isIntMin m stock = true) :
    ∃ n, stock = .int n ∧ m ≤ n := by
  cases stock with
  | int n => exact ⟨n, rfl, by simpa [isIntMin] using h⟩
  | nonIntNum => exact absurd h (by simp [isIntMin])
  | nonNum => exact absurd h (by simp [isIntMin])

lemma totalQty_nil (pid : Nat) : totalQty pid [] = 0 := rfl

lemma totalQty_cons (pid : Nat) (c : CartLine) (rest : List CartLine) :
    totalQty pid (c :: rest) =
      (if c.productId = pid then c.quantity else 0) + totalQty pid rest := by
  unfold totalQty
  by_cases h : c.productId = pid
  · simp [List.filter_cons, h]
  · simp [List.filter_cons, h]

lemma purchaseLoop_ok_eq (lines : List CartLine) :
    ∀ products : List Product, (purchaseLoop products lines).1 = .ok () →
      (purchaseLoop products lines).2 =
        products.map (fun p => { p with stock := p.stock - totalQty p.id lines }) := by
  induction lines with
  | nil =>
      intro products _
      have hid : ∀ p : Product,
          ({ p with stock := p.stock - totalQty p.id [] } : Product) = p := by
        intro p
        simp [totalQty_nil]
      calc (purchaseLoop products []).2 = products := rfl
        _ = products.map (fun p => { p with stock := p.stock - totalQty p.id [] }) := by
            rw [List.map_congr_left (fun p _ => hid p)]
            simp
  | cons item rest ih =>
      intro products hok
      unfold purchaseLoop at hok ⊢
      cases hfind : products.find? (fun p => p.id == item.productId) with
      | none =>
          rw [hfind] at hok
          simp at hok
      | some product =>
          rw [hfind] at hok
          dsimp only at hok ⊢
          by_cases hge : product.stock ≥ item.quantity
          · rw [if_pos hge] at hok ⊢
            rw [ih _ hok, List.map_map]
            apply List.map_congr_left
            intro q _
            have hid : product.id = item.productId := by
              simpa using List.find?_some hfind
            by_cases hqid : q.id = item.productId
            · simp only [Function.comp, hid, hqid, beq_self_eq_true, if_pos]
              rw [totalQty_cons]
              simp [sub_sub]
            · simp only [Function.comp, hid]
              rw [if_neg (by simp [hqid])]
              rw [totalQty_cons, if_neg (fun hc => hqid hc.symm)]
              simp
          · rw [if_neg hge] at hok
            simp at hok

lemma purchaseLoop_stockInv (lines : List CartLine) :
    ∀ products : List Product, (products.map Product.id).Nodup → StockInv products →
      StockInv (purchaseLoop products lines).2 := by
  induction lines with
  | nil => intro ps _ h; exact h
  | cons item rest ih =>
      intro ps hnd h
      unfold purchaseLoop
      cases hfind : ps.find? (fun p => p.id == item.productId) with
      | none => exact h
      | some product =>
          dsimp only
          have hprodmem := List.mem_of_find?_eq_some hfind
          by_cases hge : product.stock ≥ item.quantity
          · rw [if_pos hge]
            have hidmap : (ps.map (fun q =>
                if q.id == product.id then { q with stock := q.stock - item.quantity } else q)).map
                  Product.id = ps.map Product.id := by
              rw [List.map_map]
              apply List.map_congr_left
              intro q _
              by_cases hq : q.id = product.id <;> simp [Function.comp, hq]
            apply ih
            · rw [hidmap]; exact hnd
            · intro q hq
              rw [List.mem_map] at hq
              obtain ⟨x, hx, hxq⟩ := hq
              by_cases hxid : x.id = product.id
              · rw [if_pos (by simp [hxid])] at hxq
                have hxp : x = product :=
                  List.inj_on_of_nodup_map hnd hx hprodmem hxid
                subst hxq
                simp only [hxp]
                exact sub_nonneg.mpr hge
              · rw [if_neg (by simp [hxid])] at hxq
                exact hxq ▸ h x hx
          · rw [if_neg hge]
            exact h

/-- Claim C1.  During checkout settlement the code aborts as the claim says
only in the insufficient-stock case.  First conjunct: with a passing line
for product 1 (stock 5, quantity 2) followed by a line for the nonexistent
product 99, the handler throws a `TypeError` reading the name of a `null`
product instead of responding with InsufficientStock; the decrement already
applied to product 1 (5 to 3) is left in place and both cart lines of the
user remain.  Second conjunct: a line whose product exists with stock below
the quantity does abort with InsufficientStock naming the product, with no
state change. -/
theorem purchase_abort_behavior :
    purchaseCart c1Store "u" =
      (.error .typeError,
        { products := [⟨1, "A", .int 10, 3⟩], users := [],
          carts := [⟨"u", 1, 2⟩, ⟨"u", 99, 1⟩], nextId := 2 }) ∧
    purchaseCart c1bStore "u" =
      (.error (.insufficientStock "Insufficient stock for A"), c1bStore) :=
  ⟨rfl, rfl⟩

/-- Claim C2.  When checkout settlement reports success, the response is
`Purchase successful!`, exactly the cart lines of the purchasing user are
deleted, users are untouched, and every product ends with its stock
decremented by the total quantity the settled lines requested of it (the
loop applies the decrements one line at a time, in fetch order). -/
theorem purchase_settles_and_clears (s : Store) (u : String) (msg : String) (s' : Store)
    (h : purchaseCart s u = (.ok msg, s')) :
    msg = "Purchase successful!" ∧
    s'.carts = s.carts.filter (fun c => !(c.userId == u)) ∧
    s'.users = s.users ∧
    s'.products = s.products.map (fun p =>
      { p with stock := p.stock - totalQty p.id (s.carts.filter (fun c => c.userId == u)) }) := by
  simp only [purchaseCart] at h
  cases hl : purchaseLoop s.products (s.carts.filter (fun c => c.userId == u)) with
  | mk r ps' =>
      rw [hl] at h
      cases r with
      | error e => exact absurd h (by simp)
      | ok a =>
          have hprod := purchaseLoop_ok_eq (s.carts.filter (fun c => c.userId == u)) s.products
            (by rw [hl])
          rw [hl] at hprod
          simp only [Prod.mk.injEq] at h
          obtain ⟨hmsg, hs'⟩ := h
          have hmsg' : msg = "Purchase successful!" := by
            injection hmsg with hm
            exact hm.symm
          refine ⟨hmsg', ?_, ?_, ?_⟩
          · rw [← hs']
          · rw [← hs']
          · rw [← hs']
            exact hprod

/-- Witness for C2, the concrete instance named by the spec: one cart line
for a product of stock 10 with quantity 3 settles to stock 7 and an empty
cart. -/
theorem purchase_settles_and_clears_witness :
    c2After.carts = c2Store.carts.filter (fun c => !(c.userId == "u")) ∧
    c2After.products = c2Store.products.map (fun p =>
      { p with stock := p.stock - totalQty p.id (c2Store.carts.filter (fun c => c.userId == "u")) }) := by
  have h := purchase_settles_and_clears c2Store "u" "Purchase successful!" c2After rfl
  exact ⟨h.2.1, h.2.2.2⟩

/-- Claim C3.  The `/cart` handler attaches validators but never reads
`validationResult`, so the ValidationError clause of the claim does not hold
on the code.  First conjunct: a request with empty `userId` and quantity 0
(both rejected by the attached validators, second conjunct) succeeds and
inserts the cart line anyway.  Remaining conjuncts: the InsufficientStock
clause does hold for a quantity above stock (5 against 6) and for a missing
product, and a second add for the same pair accumulates a duplicate line. -/
theorem addToCart_ignores_validators :
    addToCart c3Store "" 1 0 =
      (.ok "Added to cart", { c3Store with carts := [⟨"", 1, 0⟩] }) ∧
    cartValidationErrors "" "1" (.int 0) =
      ["User ID required", "Quantity must be at least 1"] ∧
    (addToCart c3Store "u" 1 6).1 =
      .error (.insufficientStock "Insufficient stock or product not found") ∧
    (addToCart c3Store "u" 99 1).1 =
      .error (.insufficientStock "Insufficient stock or product not found") ∧
    (addToCart { c3Store with carts := [⟨"u", 1, 1⟩] } "u" 1 1).2.carts =
      [⟨"u", 1, 1⟩, ⟨"u", 1, 1⟩] :=
  ⟨rfl, rfl, rfl, rfl, rfl⟩

/-- Claim C4.  Product creation fails with ValidationError exactly when the
name is empty, the price is not numeric, or the stock is not a non-negative
integer; on any valid input it returns a product carrying the given fields,
and the product list afterwards contains that record. -/
theorem createProduct_validates_and_persists (s : Store) (name : String) (price stock : BodyVal) :
    ((∃ msgs, (createProduct s name price stock).1 = .error (.validation msgs)) ↔
      (name = "" ∨ isNumeric price = false ∨ isIntMin 0 stock = false)) ∧
    (¬ (name = "" ∨ isNumeric price = false ∨ isIntMin 0 stock = false) →
      ∃ p, (createProduct s name price stock).1 = .ok p) ∧
    (∀ p, (createProduct s name price stock).1 = .ok p →
      p.name = name ∧ p.price = price ∧ stock = .int p.stock ∧
      p ∈ listProducts (createProduct s name price stock).2) := by
  by_cases he : productValidationErrors name price stock = []
  · obtain ⟨hn, hp, hs⟩ := (productValidationErrors_eq_nil name price stock).mp he
    obtain ⟨n, rfl, hn0⟩ := isIntMin_int 0 stock hs
    refine ⟨?_, ?_, ?_⟩
    · simp only [createProduct, he, if_pos]
      constructor
      · rintro ⟨msgs, hmsg⟩
        exact Except.noConfusion hmsg
      · intro hcond
        rcases hcond with h | h | h
        · exact absurd h hn
        · exact absurd hp (by simp [h])
        · exact absurd hs (by simp [h])
    · intro _
      exact ⟨⟨s.nextId, name, price, n⟩, by simp [createProduct, he]⟩
    · intro p hp'
      simp only [createProduct, he, if_pos] at hp'
      have : (⟨s.nextId, name, price, n⟩ : Product) = p := by
        injection hp'
      subst this
      refine ⟨rfl, rfl, rfl, ?_⟩
      simp [createProduct, he, listProducts]
  · have hcond : name = "" ∨ isNumeric price = false ∨ isIntMin 0 stock = false := by
      by_contra hc
      push_neg at hc
      obtain ⟨h1, h2, h3⟩ := hc
      exact he ((productValidationErrors_eq_nil name price stock).mpr
        ⟨h1, by simpa using (Bool.not_eq_false _).mp h2, by simpa using (Bool.not_eq_false _).mp h3⟩)
    refine ⟨?_, ?_, ?_⟩
    · constructor
      · intro _; exact hcond
      · intro _
        refine ⟨productValidationErrors name price stock, ?_⟩
        unfold createProduct
        rw [if_neg he]
    · intro hc; exact absurd hcond hc
    · intro p hp'
      unfold createProduct at hp'
      rw [if_neg he] at hp'
      exact Except.noConfusion hp'

/-- Witness for C4: creating a valid product in the empty store yields a
record that the subsequent product list contains. -/
theorem createProduct_validates_and_persists_witness :
    (⟨0, "A", .int 10, 5⟩ : Product) ∈
      listProducts (createProduct w4Store "A" (.int 10) (.int 5)).2 :=
  ((createProduct_validates_and_persists w4Store "A" (.int 10) (.int 5)).2.2
    ⟨0, "A", .int 10, 5⟩ rfl).2.2.2

/-- Claim C5.  With valid fields, product update responds NotFound exactly
when no product carries the id; when the update succeeds, the returned
record carries the id and the new fields, the collection keeps its length,
every product with a different id is untouched in both directions, and the
cart and user collections are unchanged. -/
theorem updateProduct_targets_exactly (s : Store) (id : Nat) (name : String)
    (price stock : BodyVal)
    (hname : ¬ name = "") (hprice : isNumeric price = true) (hstock : isIntMin 0 stock = true) :
    ((updateProduct s id name price stock).1 = .error (.notFound "Product not found") ↔
      ∀ p ∈ s.products, ¬ p.id = id) ∧
    ((∃ p ∈ s.products, p.id = id) → ∃ p', (updateProduct s id name price stock).1 = .ok p') ∧
    (∀ p', (updateProduct s id name price stock).1 = .ok p' →
      p'.id = id ∧ p'.name = name ∧ p'.price = price ∧ stock = .int p'.stock ∧
      (updateProduct s id name price stock).2.products.length = s.products.length ∧
      (∀ q ∈ s.products, ¬ q.id = id → q ∈ (updateProduct s id name price stock).2.products) ∧
      (∀ q ∈ (updateProduct s id name price stock).2.products, ¬ q.id = id → q ∈ s.products) ∧
      (updateProduct s id name price stock).2.carts = s.carts ∧
      (updateProduct s id name price stock).2.users = s.users) := by
  have he : productValidationErrors name price stock = [] :=
    (productValidationErrors_eq_nil name price stock).mpr ⟨hname, hprice, hstock⟩
  obtain ⟨n, rfl, hn0⟩ := isIntMin_int 0 stock hstock
  cases hfind : s.products.find? (fun p => p.id == id) with
  | none =>
      have hnone := List.find?_eq_none.mp hfind
      refine ⟨?_, ?_, ?_⟩
      · simp only [updateProduct, he, if_pos, hfind]
        constructor
        · intro _ p hp hpid
          exact hnone p hp (by simp [hpid])
        · intro _; trivial
      · rintro ⟨p, hp, hpid⟩
        exact absurd (by simp [hpid] : (p.id == id) = true) (hnone p hp)
      · intro p' hp'
        simp only [updateProduct, he, if_pos, hfind] at hp'
        exact Except.noConfusion hp'
  | some p =>
      have hmem := List.mem_of_find?_eq_some hfind
      have hpid : p.id = id := by simpa using List.find?_some hfind
      refine ⟨?_, ?_, ?_⟩
      · simp only [updateProduct, he, if_pos, hfind]
        constructor
        · intro hcontra
          exact Except.noConfusion hcontra
        · intro hall
          exact absurd hpid (hall p hmem)
      · intro _
        exact ⟨⟨p.id, name, price, n⟩, by simp [updateProduct, he, hfind]⟩
      · intro p' hp'
        simp only [updateProduct, he, if_pos, hfind] at hp'
        have hp'eq : (⟨p.id, name, price, n⟩ : Product) = p' := by injection hp'
        subst hp'eq
        refine ⟨hpid, rfl, rfl, rfl, ?_, ?_, ?_,
          by simp [updateProduct, he, hfind], by simp [updateProduct, he, hfind]⟩
        · simp [updateProduct, he, hfind]
        · intro q hq hqid
          simp only [updateProduct, he, if_pos, hfind]
          have : ((fun q => if q.id == id then (⟨p.id, name, price, n⟩ : Product) else q) q) = q := by
            simp [hqid]
          exact this ▸ List.mem_map_of_mem _ hq
        · intro q hq hqid
          simp only [updateProduct, he, if_pos, hfind] at hq
          rw [List.mem_map] at hq
          obtain ⟨x, hx, hxq⟩ := hq
          by_cases hxid : x.id = id
          · rw [if_pos (by simp [hxid])] at hxq
            exact absurd (hxq ▸ hpid) hqid
          · rw [if_neg (by simp [hxid])] at hxq
            exact hxq ▸ hx

/-- Witness for C5: updating product 1 in a two-product store leaves
product 2 in the collection untouched. -/
theorem updateProduct_targets_exactly_witness :
    (⟨2, "B", .int 20, 7⟩ : Product) ∈ (updateProduct w5Store 1 "A2" (.int 12) (.int 4)).2.products :=
  ((updateProduct_targets_exactly w5Store 1 "A2" (.int 12) (.int 4)
      (by decide) rfl rfl).2.2 ⟨1, "A2", .int 12, 4⟩ rfl).2.2.2.2.2.1
    ⟨2, "B", .int 20, 7⟩ (by decide) (by decide)

/-- Claim C6.  Product deletion is total and idempotent: it always responds
`Product deleted`, afterwards no product with the id remains, and deleting
the same id a second time gives the identical response and state. -/
theorem deleteProduct_idempotent_total (s : Store) (id : Nat) :
    (deleteProduct s id).1 = "Product deleted" ∧
    (∀ p ∈ (deleteProduct s id).2.products, ¬ p.id = id) ∧
    deleteProduct (deleteProduct s id).2 id = deleteProduct s id := by
  refine ⟨rfl, ?_, ?_⟩
  · intro p hp
    simp [deleteProduct, List.mem_filter] at hp
    exact hp.2
  · simp [deleteProduct, List.filter_filter]

/-- Claim C7.  Login responds Unauthorized exactly when no stored user
matches both the username and the password; when it responds with a role,
some stored user matches both fields and carries that role. -/
theorem login_matches_exactly (s : Store) (username password : String) :
    (login s username password = .error (.unauthorized "Invalid credentials") ↔
      ∀ u ∈ s.users, ¬ (u.username = username ∧ u.password = password)) ∧
    (∀ r, login s username password = .ok r →
      ∃ u ∈ s.users, u.username = username ∧ u.password = password ∧ u.role = r) := by
  constructor
  · cases h : s.users.find? (fun u => u.username == username && u.password == password) with
    | none =>
        simp only [login, h]
        rw [List.find?_eq_none] at h
        simp only [Bool.and_eq_true, beq_iff_eq] at h
        simpa using h
    | some u =>
        simp only [login, h]
        have hmem := List.mem_of_find?_eq_some h
        have hpred := List.find?_some h
        simp only [Bool.and_eq_true, beq_iff_eq] at hpred
        constructor
        · intro hcontra
          exact Except.noConfusion hcontra
        · intro hall
          exact absurd ⟨hpred.1, hpred.2⟩ (hall u hmem)
  · intro r hr
    unfold login at hr
    cases h : s.users.find? (fun u => u.username == username && u.password == password) with
    | none => rw [h] at hr; exact absurd hr (by simp)
    | some u =>
        rw [h] at hr
        have hmem := List.mem_of_find?_eq_some h
        have hpred := List.find?_some h
        simp only [Bool.and_eq_true, beq_iff_eq] at hpred
        have : u.role = r := by injection hr
        exact ⟨u, hmem, hpred.1, hpred.2, this⟩

/-- Witness for C7: logging in with the seeded admin credentials finds a
stored user matching both fields whose role is admin. -/
theorem login_matches_exactly_witness :
    ∃ u ∈ w7Store.users, u.username = "admin" ∧ u.password = "admin123" ∧ u.role = "admin" :=
  (login_matches_exactly w7Store "admin" "admin123").2 "admin" rfl

/-- Claim C8.  Under sequential execution, every operation preserves
non-negative stocks: starting from a store whose products all have stock at
least 0 (and, as the document store guarantees, pairwise distinct ids), the
store left behind by product creation, update, deletion, cart addition and
checkout settlement again has only non-negative stocks. -/
theorem ops_preserve_stock_nonneg (s : Store)
    (hids : (s.products.map Product.id).Nodup) (h : StockInv s.products) :
    (∀ name price stock, StockInv (createProduct s name price stock).2.products) ∧
    (∀ id name price stock, StockInv (updateProduct s id name price stock).2.products) ∧
    (∀ id, StockInv (deleteProduct s id).2.products) ∧
    (∀ u pid q, StockInv (addToCart s u pid q).2.products) ∧
    (∀ u, StockInv (purchaseCart s u).2.products) := by
  refine ⟨?_, ?_, ?_, ?_, ?_⟩
  · intro name price stock
    by_cases he : productValidationErrors name price stock = []
    · obtain ⟨_, hnum, hmin⟩ := (productValidationErrors_eq_nil name price stock).mp he
      obtain ⟨n, rfl, hn0⟩ := isIntMin_int 0 stock hmin
      simp only [createProduct, he, if_pos]
      intro p hp
      rw [List.mem_append] at hp
      rcases hp with hp | hp
      · exact h p hp
      · simp only [List.mem_singleton] at hp
        subst hp
        exact hn0
    · cases stock with
      | int n => simp only [createProduct, he, if_neg, ite_false]; exact h
      | nonIntNum => simp only [createProduct, he, if_neg, ite_false]; exact h
      | nonNum => simp only [createProduct, he, if_neg, ite_false]; exact h
  · intro id name price stock
    by_cases he : productValidationErrors name price stock = []
    · obtain ⟨_, hnum, hmin⟩ := (productValidationErrors_eq_nil name price stock).mp he
      obtain ⟨n, rfl, hn0⟩ := isIntMin_int 0 stock hmin
      cases hfind : s.products.find? (fun p => p.id == id) with
      | none => simp only [updateProduct, he, if_pos, hfind]; exact h
      | some p =>
          simp only [updateProduct, he, if_pos, hfind]
          intro q hq
          rw [List.mem_map] at hq
          obtain ⟨x, hx, hxq⟩ := hq
          by_cases hxid : x.id = id
          · rw [if_pos (by simp [hxid])] at hxq
            rw [← hxq]
            exact hn0
          · rw [if_neg (by simp [hxid])] at hxq
            exact hxq ▸ h x hx
    · cases stock with
      | int n => simp only [updateProduct, he, if_neg, ite_false]; exact h
      | nonIntNum => simp only [updateProduct, he, if_neg, ite_false]; exact h
      | nonNum => simp only [updateProduct, he, if_neg, ite_false]; exact h
  · intro id p hp
    simp only [deleteProduct, List.mem_filter] at hp
    exact h p hp.1
  · intro u pid q
    rw [addToCart_products_eq]
    exact h
  · intro u
    have hinv := purchaseLoop_stockInv (s.carts.filter (fun c => c.userId == u)) s.products hids h
    simp only [purchaseCart]
    cases hl : purchaseLoop s.products (s.carts.filter (fun c => c.userId == u)) with
    | mk r ps' =>
        rw [hl] at hinv
        cases r with
        | ok a => exact hinv
        | error e => exact hinv

/-- Witness for C8: settling the cart of user u in a concrete non-negative
store leaves only non-negative stocks. -/
theorem ops_preserve_stock_nonneg_witness :
    StockInv (purchaseCart w8Store "u").2.products :=
  (ops_preserve_stock_nonneg w8Store (by decide) (by decide)).2.2.2.2 "u"

/-- Claim C9.  Checkout settlement for a user with an empty cart responds
`Purchase successful!` and returns the store unchanged: every product
record and every cart line of other users is exactly as before. -/
theorem purchase_empty_cart (s : Store) (u : String)
    (h : s.carts.filter (fun c => c.userId == u) = []) :
    purchaseCart s u = (.ok "Purchase successful!", s) := by
  unfold purchaseCart
  rw [h]
  have hall : ∀ c ∈ s.carts, ¬ (c.userId == u) = true := List.filter_eq_nil_iff.mp h
  have hkeep : s.carts.filter (fun c => !(c.userId == u)) = s.carts := by
    rw [List.filter_eq_self]
    intro c hc
    simp [hall c hc]
  simp [purchaseLoop, hkeep]

/-- Witness for C9: alice has no cart lines in a store where bob has one, so
her checkout succeeds and the store is untouched. -/
theorem purchase_empty_cart_witness :
    purchaseCart w9Store "alice" = (.ok "Purchase successful!", w9Store) :=
  purchase_empty_cart w9Store "alice" rfl

/-- Claim C10.  Adding to the cart never modifies the product or user
collections, whether the request succeeds or fails; the cart collection is
either unchanged (on failure) or gains exactly the one new line at the
end. -/
theorem addToCart_products_unchanged (s : Store) (u : String) (pid : Nat) (q : Int) :
    (addToCart s u pid q).2.products = s.products ∧
    (addToCart s u pid q).2.users = s.users ∧
    ((addToCart s u pid q).2.carts = s.carts ∨
      (addToCart s u pid q).2.carts = s.carts ++ [⟨u, pid, q⟩]) := by
  refine ⟨addToCart_products_eq s u pid q, addToCart_users_eq s u pid q, ?_⟩
  unfold addToCart
  cases h : s.products.find? (fun p => p.id == pid) with
  | none => left; rfl
  | some product =>
      by_cases hs : product.stock < q
      · left; simp [hs]
      · right; simp [hs]
